import Mathlib

set_option maxRecDepth 100000

/-!
Verification development for the IPPAN fairness-model pipeline
(`ai_training/train_ippan_d_gbdt.py`, `ai_training/train_ippan_d_gbdt_devnet.py`,
`ai_training/promote_fairness_model.py`).

The Python source is shallowly embedded: pure functions become Lean functions,
file-system effects become explicit state passing, machine words are `Nat`
with explicit `% 2 ^ 32`, Python exceptions become `Option`.
-/

namespace IppanModel

/-! ### Python numeric primitives

`round` in Python 3 on a float uses round-half-to-even on the exact value of
its argument; `int()` on a float truncates toward zero.  Floats that appear in
the claims are embedded as exact rationals. -/

/-- Python 3 `round(q)` for a real (here: rational) argument:
nearest integer, ties to the even neighbour (banker's rounding). -/
def pyRound (q : ℚ) : ℤ :=
  if q - ⌊q⌋ < 1/2 then ⌊q⌋
  else if 1/2 < q - ⌊q⌋ then ⌊q⌋ + 1
  else if ⌊q⌋ % 2 = 0 then ⌊q⌋ else ⌊q⌋ + 1

/-- Python `int(q)` on a float/rational: truncation toward zero. -/
def pyIntTrunc (q : ℚ) : ℤ :=
  if 0 ≤ q then ⌊q⌋ else ⌈q⌉

/-- The exact value of the IEEE-754 double literal `0.2`
(the nearest double to 1/5). -/
def pyFloat02 : ℚ := 3602879701896397 / 2 ^ 54

/-- The spec-side rounding rule, round-half-away-from-zero, written from the
spec's words ("the quantized integer is the one farther from zero") for
comparison with the source's `pyRound`. -/
def specRoundHalfAway (q : ℚ) : ℤ :=
  if 0 ≤ q then ⌊q + 1/2⌋ else ⌈q - 1/2⌉

/-! ### Bytes, hex strings and 32-bit words

Byte sequences are `List Nat` with every element below 256; 32-bit words are
`Nat` reduced with `% 2 ^ 32` wherever overflow could occur. -/

/-- The bytes of an ASCII string (agrees with Python's UTF-8 encoding on
ASCII text, which is the only text the concrete inputs use). -/
def strBytes (s : List Char) : List Nat := s.map Char.toNat

/-- Lower-case hex digit for a value below 16. -/
def hexChar (n : Nat) : Char :=
  if n < 10 then Char.ofNat (48 + n) else Char.ofNat (87 + n)

/-- Two lower-case hex digits of a byte. -/
def byteHex (b : Nat) : List Char := [hexChar (b / 16 % 16), hexChar (b % 16)]

/-- Lower-case hex rendering of a byte sequence, as Python's `hexdigest`. -/
def bytesToHex (bs : List Nat) : List Char := (bs.map byteHex).flatten

/-- Rotation of a 32-bit word to the right by `n`. -/
def rotr32 (n x : Nat) : Nat := ((x >>> n) ||| (x <<< (32 - n))) % 2 ^ 32

/-- Big-endian bytes of a 32-bit word. -/
def be32 (n : Nat) : List Nat :=
  [n >>> 24 % 256, n >>> 16 % 256, n >>> 8 % 256, n % 256]

/-- Big-endian bytes of a 64-bit length field. -/
def be64 (n : Nat) : List Nat :=
  [n >>> 56 % 256, n >>> 48 % 256, n >>> 40 % 256, n >>> 32 % 256,
   n >>> 24 % 256, n >>> 16 % 256, n >>> 8 % 256, n % 256]

/-- Pack big-endian 4-byte groups into 32-bit words. -/
def beWords : List Nat → List Nat
  | b0 :: b1 :: b2 :: b3 :: rest =>
      (((b0 * 256 + b1) * 256 + b2) * 256 + b3) :: beWords rest
  | _ => []

/-- Split a word list into blocks of 16 words (structurally, so that the
kernel can evaluate it; a trailing incomplete block is passed through and
never arises on padded input). -/
def chunk16 : List Nat → List (List Nat)
  | w0 :: w1 :: w2 :: w3 :: w4 :: w5 :: w6 :: w7 ::
    w8 :: w9 :: w10 :: w11 :: w12 :: w13 :: w14 :: w15 :: rest =>
      [w0, w1, w2, w3, w4, w5, w6, w7, w8, w9, w10, w11, w12, w13, w14, w15] ::
        chunk16 rest
  | [] => []
  | other => [other]

/-! ### SHA-256 (`hashlib.sha256`), used by the deterministic splitter -/

/-- SHA-256 round constants (FIPS 180-4, in decimal). -/
def shaK : List Nat :=
  [1116352408, 1899447441, 3049323471, 3921009573, 961987163, 1508970993,
   2453635748, 2870763221, 3624381080, 310598401, 607225278, 1426881987,
   1925078388, 2162078206, 2614888103, 3248222580, 3835390401, 4022224774,
   264347078, 604807628, 770255983, 1249150122, 1555081692, 1996064986,
   2554220882, 2821834349, 2952996808, 3210313671, 3336571891, 3584528711,
   113926993, 338241895, 666307205, 773529912, 1294757372, 1396182291,
   1695183700, 1986661051, 2177026350, 2456956037, 2730485921, 2820302411,
   3259730800, 3345764771, 3516065817, 3600352804, 4094571909, 275423344,
   430227734, 506948616, 659060556, 883997877, 958139571, 1322822218,
   1537002063, 1747873779, 1955562222, 2024104815, 2227730452, 2361852424,
   2428436474, 2756734187, 3204031479, 3329325298]

/-- SHA-256 initial hash state (FIPS 180-4, in decimal). -/
def shaH0 : List Nat :=
  [1779033703, 3144134277, 1013904242, 2773480762,
   1359893119, 2600822924, 528734635, 1541459225]

/-- SHA-256 padding: append `0x80`, zeros to 56 mod 64, then the 64-bit
big-endian bit length. -/
def shaPad (msg : List Nat) : List Nat :=
  msg ++ [0x80] ++ List.replicate ((119 - msg.length % 64) % 64) 0 ++
    be64 (8 * msg.length)

/-- Extend a 16-word block to the 64-word message schedule. -/
def shaSchedule (block : List Nat) : List Nat :=
  (List.range 48).foldl
    (fun ws _ =>
      let i := ws.length
      let w15 := ws.getD (i - 15) 0
      let w2 := ws.getD (i - 2) 0
      let s0 := rotr32 7 w15 ^^^ rotr32 18 w15 ^^^ (w15 >>> 3)
      let s1 := rotr32 17 w2 ^^^ rotr32 19 w2 ^^^ (w2 >>> 10)
      ws ++ [(ws.getD (i - 16) 0 + s0 + ws.getD (i - 7) 0 + s1) % 2 ^ 32])
    block

/-- Working state of the SHA-256 compression loop. -/
structure ShaState where
  a : Nat
  b : Nat
  c : Nat
  d : Nat
  e : Nat
  f : Nat
  g : Nat
  h : Nat

/-- One SHA-256 compression round. -/
def shaRound (st : ShaState) (kw : Nat × Nat) : ShaState :=
  let s1 := rotr32 6 st.e ^^^ rotr32 11 st.e ^^^ rotr32 25 st.e
  let ch := (st.e &&& st.f) ^^^ ((st.e ^^^ 0xFFFFFFFF) &&& st.g)
  let t1 := (st.h + s1 + ch + kw.1 + kw.2) % 2 ^ 32
  let s0 := rotr32 2 st.a ^^^ rotr32 13 st.a ^^^ rotr32 22 st.a
  let maj := (st.a &&& st.b) ^^^ (st.a &&& st.c) ^^^ (st.b &&& st.c)
  let t2 := (s0 + maj) % 2 ^ 32
  ⟨(t1 + t2) % 2 ^ 32, st.a, st.b, st.c, (st.d + t1) % 2 ^ 32, st.e, st.f, st.g⟩

/-- Compress one 16-word block into the running hash state. -/
def shaCompress (hs : List Nat) (block : List Nat) : List Nat :=
  let ws := shaSchedule block
  let st0 : ShaState :=
    ⟨hs.getD 0 0, hs.getD 1 0, hs.getD 2 0, hs.getD 3 0,
     hs.getD 4 0, hs.getD 5 0, hs.getD 6 0, hs.getD 7 0⟩
  let st := (shaK.zip ws).foldl shaRound st0
  [(hs.getD 0 0 + st.a) % 2 ^ 32, (hs.getD 1 0 + st.b) % 2 ^ 32,
   (hs.getD 2 0 + st.c) % 2 ^ 32, (hs.getD 3 0 + st.d) % 2 ^ 32,
   (hs.getD 4 0 + st.e) % 2 ^ 32, (hs.getD 5 0 + st.f) % 2 ^ 32,
   (hs.getD 6 0 + st.g) % 2 ^ 32, (hs.getD 7 0 + st.h) % 2 ^ 32]

/-- SHA-256 digest (32 bytes) of a byte sequence. -/
def sha256 (msg : List Nat) : List Nat :=
  (((chunk16 (beWords (shaPad msg))).foldl shaCompress shaH0).map be32).flatten

/-! ### Deterministic splitter (`is_val` in both trainers)

```python
def is_val(i: int) -> bool:
    h = hashlib.sha256(row_key(i).encode("utf-8")).digest()
    bucket = (h[0] << 8) | h[1]  # 0..65535
    return bucket < int(0.2 * 65536)  # 20% val
```
The key is embedded already UTF-8 encoded, as a byte list. -/

/-- The Python expression `int(0.2 * 65536)` as Python evaluates it: multiplying the double `0.2`
by `2 ^ 16` only shifts the exponent, so the float product is exactly
`pyFloat02 * 65536`, then `int` truncates. -/
def valThreshold : ℤ := pyIntTrunc (pyFloat02 * 65536)

/-- The bucket `(h[0] << 8) | h[1]` over the SHA-256 digest of the key bytes. -/
def shaBucket (key : List Nat) : Nat :=
  ((sha256 key).getD 0 0) <<< 8 ||| (sha256 key).getD 1 0

/-- The split decision `is_val` from `train_ippan_d_gbdt.py` and the devnet trainer, as a
function of the UTF-8 bytes of the row key. -/
def is_val (key : List Nat) : Bool :=
  decide ((shaBucket key : ℤ) < valThreshold)

/-! ### BLAKE3 (the `blake3` library), used by the canonical hasher and the
promotion tool

Full hash-mode BLAKE3: 1024-byte chunks of 64-byte blocks, compressed with
seven rounds of the G mixing function, chunk chaining values combined
through the binary tree whose left subtree holds the largest power-of-two
number of chunks that leaves input for the right. -/

/-- BLAKE3 initialization vector (the SHA-256 IV, in decimal). -/
def b3IV : List Nat :=
  [1779033703, 3144134277, 1013904242, 2773480762,
   1359893119, 2600822924, 528734635, 1541459225]

/-- BLAKE3 message-word permutation applied between rounds. -/
def b3Perm : List Nat := [2, 6, 3, 10, 7, 0, 4, 13, 1, 11, 12, 5, 9, 14, 15, 8]

/-- The G quarter-round on state positions `a b c d` with message words
`mx my`. -/
def b3G (st : List Nat) (a b c d mx my : Nat) : List Nat :=
  let A := (st.getD a 0 + st.getD b 0 + mx) % 2 ^ 32
  let D := rotr32 16 (st.getD d 0 ^^^ A)
  let C := (st.getD c 0 + D) % 2 ^ 32
  let B := rotr32 12 (st.getD b 0 ^^^ C)
  let A2 := (A + B + my) % 2 ^ 32
  let D2 := rotr32 8 (D ^^^ A2)
  let C2 := (C + D2) % 2 ^ 32
  let B2 := rotr32 7 (B ^^^ C2)
  (((st.set a A2).set b B2).set c C2).set d D2

/-- One BLAKE3 round: four column mixes then four diagonal mixes. -/
def b3Round (st m : List Nat) : List Nat :=
  let st1 := b3G st 0 4 8 12 (m.getD 0 0) (m.getD 1 0)
  let st2 := b3G st1 1 5 9 13 (m.getD 2 0) (m.getD 3 0)
  let st3 := b3G st2 2 6 10 14 (m.getD 4 0) (m.getD 5 0)
  let st4 := b3G st3 3 7 11 15 (m.getD 6 0) (m.getD 7 0)
  let st5 := b3G st4 0 5 10 15 (m.getD 8 0) (m.getD 9 0)
  let st6 := b3G st5 1 6 11 12 (m.getD 10 0) (m.getD 11 0)
  let st7 := b3G st6 2 7 8 13 (m.getD 12 0) (m.getD 13 0)
  b3G st7 3 4 9 14 (m.getD 14 0) (m.getD 15 0)

/-- Permute the sixteen message words for the next round. -/
def b3PermuteMsg (m : List Nat) : List Nat := b3Perm.map (fun i => m.getD i 0)

/-- The BLAKE3 compression function, returning the eight-word output
`v[i] ^^^ v[i+8]` (the chaining value, and the first 32 output bytes at the
root). -/
def b3Compress (cv block : List Nat) (counter blockLen flags : Nat) : List Nat :=
  let st0 := cv.take 8 ++ b3IV.take 4 ++
    [counter % 2 ^ 32, counter / 2 ^ 32 % 2 ^ 32, blockLen, flags]
  let rounds := (List.range 7).foldl
    (fun (p : List Nat × List Nat) _ => (b3Round p.1 p.2, b3PermuteMsg p.2)) (st0, block)
  (List.range 8).map (fun i => rounds.1.getD i 0 ^^^ rounds.1.getD (i + 8) 0)

/-- Pack little-endian 4-byte groups into 32-bit words. -/
def leWords : List Nat → List Nat
  | b0 :: b1 :: b2 :: b3 :: rest =>
      (((b3 * 256 + b2) * 256 + b1) * 256 + b0) :: leWords rest
  | _ => []

/-- Split a chunk into 64-byte blocks; the empty chunk yields one empty
block.  `fuel` is a structural-recursion bound, exact whenever
`bs.length ≤ 64 * fuel + 64`. -/
def blocks64 : Nat → List Nat → List (List Nat)
  | 0, bs => [bs]
  | fuel + 1, bs =>
      if bs.length ≤ 64 then [bs] else bs.take 64 :: blocks64 fuel (bs.drop 64)

/-- Chaining value of one (at most 1024-byte) chunk: compress its blocks in
order with `CHUNK_START` on the first, `CHUNK_END` on the last, and `ROOT`
on the last when the chunk is the whole input. -/
def b3ChunkCV (chunk : List Nat) (counter : Nat) (root : Bool) : List Nat :=
  let bs := blocks64 chunk.length chunk
  bs.enum.foldl
    (fun cv ib =>
      let flags := (if ib.1 = 0 then 1 else 0) +
        (if ib.1 = bs.length - 1 then 2 + (if root then 8 else 0) else 0)
      b3Compress cv (leWords (ib.2 ++ List.replicate (64 - ib.2.length) 0))
        counter ib.2.length flags)
    b3IV

/-- Combine two child chaining values into a parent node. -/
def b3ParentCV (l r : List Nat) (root : Bool) : List Nat :=
  b3Compress b3IV (l ++ r) 0 64 (4 + if root then 8 else 0)

/-- Byte length of the left subtree: the largest power-of-two multiple of
1024 strictly below `len` (only used for inputs above one chunk). -/
def b3LeftLen (len : Nat) : Nat := 1024 * 2 ^ Nat.log2 ((len - 1) / 1024)

/-- Chaining value (no root flag) of the subtree hashing `data`, whose
first chunk has index `chunkIdx`.  `fuel` bounds the recursion depth and is
exact when `fuel ≥ data.length`. -/
def b3SubtreeCV : Nat → List Nat → Nat → List Nat
  | 0, data, chunkIdx => b3ChunkCV data chunkIdx false
  | fuel + 1, data, chunkIdx =>
      if data.length ≤ 1024 then b3ChunkCV data chunkIdx false
      else
        b3ParentCV
          (b3SubtreeCV fuel (data.take (b3LeftLen data.length)) chunkIdx)
          (b3SubtreeCV fuel (data.drop (b3LeftLen data.length))
            (chunkIdx + b3LeftLen data.length / 1024))
          false

/-- Little-endian bytes of a 32-bit word. -/
def le32 (n : Nat) : List Nat :=
  [n % 256, n >>> 8 % 256, n >>> 16 % 256, n >>> 24 % 256]

/-- BLAKE3 digest (32 bytes) of a byte sequence. -/
def blake3 (data : List Nat) : List Nat :=
  if data.length ≤ 1024 then ((b3ChunkCV data 0 true).map le32).flatten
  else
    ((b3ParentCV
        (b3SubtreeCV data.length (data.take (b3LeftLen data.length)) 0)
        (b3SubtreeCV data.length (data.drop (b3LeftLen data.length))
          (b3LeftLen data.length / 1024))
        true).map le32).flatten

/-- Lower-case hex BLAKE3 digest, as the `blake3(...).hexdigest()` calls. -/
def blake3Hex (data : List Nat) : List Char := bytesToHex (blake3 data)

/-- The promotion tool's `compute_blake3_hash`: the digest of
the raw file bytes. -/
def computeBlake3Hash (fileBytes : List Nat) : List Char := blake3Hex fileBytes

/-! ### JSON documents and `json.dumps(..., sort_keys=True, separators=(",", ":"))`

Model documents are JSON values whose numbers are integers (the only numbers
the pipeline emits).  Objects are association lists; parsed Python dicts
have unique keys. -/

/-- JSON values as they appear in the model documents. -/
inductive Json where
  | null : Json
  | bool (b : Bool) : Json
  | num (n : ℤ) : Json
  | str (s : List Char) : Json
  | arr (elems : List Json) : Json
  | obj (fields : List (List Char × Json)) : Json

/-- Decimal digits of a natural number (`fuel`-bounded structural
recursion; exact for `fuel > n`). -/
def natDigits : Nat → Nat → List Char
  | 0, _ => []
  | fuel + 1, n =>
      if n < 10 then [Char.ofNat (48 + n)]
      else natDigits fuel (n / 10) ++ [Char.ofNat (48 + n % 10)]

/-- Python's decimal rendering of an integer: no plus sign, no leading
zeros. -/
def intDecimal (n : ℤ) : List Char :=
  if n < 0 then '-' :: natDigits ((-n).toNat + 1) (-n).toNat
  else natDigits (n.toNat + 1) n.toNat

/-- Four lower-case hex digits. -/
def hex4 (n : Nat) : List Char :=
  [hexChar (n >>> 12 % 16), hexChar (n >>> 8 % 16),
   hexChar (n >>> 4 % 16), hexChar (n % 16)]

/-- Escaping of one character by `json.dumps` (default `ensure_ascii=True`):
short escapes, `\uXXXX` for other control or non-ASCII characters, and
surrogate pairs beyond the BMP. -/
def jsonEscapeChar (c : Char) : List Char :=
  if c = '"' then ['\\', '"']
  else if c = '\\' then ['\\', '\\']
  else if c = Char.ofNat 8 then ['\\', 'b']
  else if c = Char.ofNat 9 then ['\\', 't']
  else if c = Char.ofNat 10 then ['\\', 'n']
  else if c = Char.ofNat 12 then ['\\', 'f']
  else if c = Char.ofNat 13 then ['\\', 'r']
  else if c.toNat < 32 ∨ 126 < c.toNat then
    if c.toNat ≤ 0xFFFF then '\\' :: 'u' :: hex4 c.toNat
    else
      '\\' :: 'u' :: hex4 (0xD800 + (c.toNat - 0x10000) >>> 10) ++
        '\\' :: 'u' :: hex4 (0xDC00 + ((c.toNat - 0x10000) &&& 0x3FF))
  else [c]

/-- A JSON string literal with its quotes. -/
def jsonQuote (s : List Char) : List Char :=
  '"' :: (s.map jsonEscapeChar).flatten ++ ['"']

/-- Lexicographic comparison of strings by code point, as Python's `<` on
`str` (used by `sorted`/`sort_keys`). -/
def keyLt : List Char → List Char → Bool
  | [], [] => false
  | [], _ :: _ => true
  | _ :: _, [] => false
  | a :: as, b :: bs =>
      if a.toNat < b.toNat then true
      else if b.toNat < a.toNat then false
      else keyLt as bs

/-- Stable insertion of a field into a key-sorted field list. -/
def insertField (kv : List Char × Json) :
    List (List Char × Json) → List (List Char × Json)
  | [] => [kv]
  | f :: fs => if keyLt kv.1 f.1 then kv :: f :: fs else f :: insertField kv fs

/-- Stable insertion sort of object fields by key. -/
def sortFields : List (List Char × Json) → List (List Char × Json)
  | [] => []
  | f :: fs => insertField f (sortFields fs)

/-- Join pre-rendered items with commas. -/
def commaJoin : List (List Char) → List Char
  | [] => []
  | [x] => x
  | x :: y :: rest => x ++ ',' :: commaJoin (y :: rest)

/-- Compact serialization as `json.dumps(j, sort_keys=True, separators=(",", ":"))`, with keys sorted at every nesting level.  `fuel` bounds the
nesting depth structurally; it is exact whenever `fuel` exceeds the depth
of `j` (callers pass `sizeOf j`). -/
def dumpsF : Nat → Json → List Char
  | 0, _ => []
  | fuel + 1, j =>
      match j with
      | .null => "null".toList
      | .bool true => "true".toList
      | .bool false => "false".toList
      | .num n => intDecimal n
      | .str s => jsonQuote s
      | .arr xs => Char.ofNat 91 :: commaJoin (xs.map (dumpsF fuel)) ++ [Char.ofNat 93]
      | .obj fs =>
          Char.ofNat 123 ::
            commaJoin ((sortFields fs).map
              (fun kv => jsonQuote kv.1 ++ ':' :: dumpsF fuel kv.2)) ++
            [Char.ofNat 125]

/-- Nesting-depth budget for serialization.  Python's own recursion limit
(about 1000) makes `json.dumps` fail on documents anywhere near this deep,
so the bound is never reached on documents Python can serialize. -/
def jsonFuel : Nat := 1000000

/-- Canonical compact serialization of a document. -/
def pyDumps (j : Json) : List Char := dumpsF jsonFuel j

/-- First binding of a key in an object's field list (parsed Python dicts
have unique keys, so this is the dict lookup). -/
def jGet : List (List Char × Json) → List Char → Option Json
  | [], _ => none
  | (k, v) :: rest, key => if k = key then some v else jGet rest key

/-- The canonical five-field projection built by `_compute_model_hash_b3`
from the values found in the full document. -/
def canonicalProjection (b p s t v : Json) : Json :=
  .obj [("bias".toList, b), ("post_scale".toList, p), ("scale".toList, s),
        ("trees".toList, t), ("version".toList, v)]

/-- The devnet trainer's `_compute_model_hash_b3` (the
`blake3`-library path): project the five recognized fields out of the full
model document, serialize them canonically, and digest the UTF-8 bytes.
A missing field or a non-object document is a `KeyError`/`TypeError`,
embedded as `none`. -/
def computeModelHashB3 (fullModel : Json) : Option (List Char) :=
  match fullModel with
  | .obj fs => do
      let b ← jGet fs "bias".toList
      let p ← jGet fs "post_scale".toList
      let s ← jGet fs "scale".toList
      let t ← jGet fs "trees".toList
      let v ← jGet fs "version".toList
      some (blake3Hex (strBytes (pyDumps (canonicalProjection b p s t v))))
  | _ => none

/-! ### Tree quantizer (`quantize_tree_structure`, identical in
`train_ippan_d_gbdt.py` and `train_ippan_d_gbdt_devnet.py`)

A LightGBM tree-structure dict is embedded by the fields the function
reads: `leaf_value`, `split_feature`, `threshold`, `left_child`,
`right_child`, each possibly absent (`dict` access of an absent key is a
`KeyError`, collapsing the whole call to `none`). -/

/-- A LightGBM `tree_structure` node as the quantizer sees it. -/
inductive RawTree where
  | mk (leaf_value : Option ℚ) (split_feature : Option ℤ) (threshold : Option ℚ)
      (left_child : Option RawTree) (right_child : Option RawTree)

/-- One quantized node dict. -/
structure QNode where
  id : ℕ
  left : ℤ
  right : ℤ
  feature_idx : ℤ
  threshold : ℤ
  leaf : Option ℤ
deriving DecidableEq

/-- The constant `SCALE = 1_000_000`. -/
def SCALE : ℕ := 1000000

/-- The feature list `FEATURE_COLS`. -/
def FEATURE_COLS : List (List Char) :=
  ["uptime_ratio_7d".toList, "validated_blocks_7d".toList,
   "missed_blocks_7d".toList, "avg_latency_ms".toList,
   "slashing_events_90d".toList, "stake_normalized".toList,
   "peer_reports_quality".toList]

/-- Dictionary lookup (first binding). -/
def dictGet {α : Type} : List (List Char × α) → List Char → Option α
  | [], _ => none
  | f :: rest, key => if f.1 = key then some f.2 else dictGet rest key

/-- The map `FEATURE_SCALE = {feature: SCALE for feature in FEATURE_COLS}`. -/
def FEATURE_SCALE : List (List Char × ℕ) := FEATURE_COLS.map (fun f => (f, SCALE))

/-- Python list indexing: negative indices count from the end; an index at
or beyond either end is an `IndexError`. -/
def pyIndex {α : Type} (xs : List α) (i : ℤ) : Option α :=
  if 0 ≤ i then xs[i.toNat]?
  else if (xs.length : ℤ) + i < 0 then none
  else xs[((xs.length : ℤ) + i).toNat]?

/-- The fix-up `nodes[node_id]["left"] = left_id; nodes[node_id]["right"] = right_id`. -/
def setLR (ns : List QNode) (i : ℕ) (l r : ℤ) : List QNode :=
  match ns[i]? with
  | some n => ns.set i { n with left := l, right := r }
  | none => ns

/-- The recursive `visit` worker of `quantize_tree_structure`: pre-order
append of the current node, recursion into both children, then fix-up of
the parent's child indices.  A node with a `leaf_value` key is emitted as a
leaf regardless of its other keys; otherwise all four split keys are read
(`KeyError` when absent) and the feature index resolved with Python list
indexing (`IndexError` when out of range). -/
def visit : RawTree → List QNode → Option (List QNode × ℕ)
  | .mk (some lv) _ _ _ _, nodes =>
      some (nodes ++ [{ id := nodes.length, left := -1, right := -1,
                        feature_idx := -1, threshold := 0,
                        leaf := some (pyRound (lv * (SCALE : ℚ))) }],
            nodes.length)
  | .mk none (some sf) (some th) (some lc) (some rc), nodes =>
      match pyIndex FEATURE_COLS sf with
      | none => none
      | some fname =>
        match dictGet FEATURE_SCALE fname with
        | none => none
        | some tscale =>
          match visit lc (nodes ++
              [{ id := nodes.length, left := -1, right := -1, feature_idx := sf,
                 threshold := pyRound (th * (tscale : ℚ)), leaf := none }]) with
          | none => none
          | some (nodes2, lid) =>
            match visit rc nodes2 with
            | none => none
            | some (nodes3, rid) =>
                some (setLR nodes3 nodes.length lid rid, nodes.length)
  | _, _ => none

/-- The top-level `quantize_tree_structure(tree)`. -/
def quantize_tree_structure (tree : RawTree) : Option (List QNode) :=
  (visit tree []).map Prod.fst

/-- A node on which `visit` necessarily raises: no `leaf_value` and either
a missing split key or a feature index Python cannot resolve (below
`-len(FEATURE_COLS)` or at/above `len(FEATURE_COLS)`); or such a node in a
reachable subtree. -/
def hasBadNode : RawTree → Bool
  | .mk (some _) _ _ _ _ => false
  | .mk none (some sf) (some _) (some lc) (some rc) =>
      (pyIndex FEATURE_COLS sf).isNone || hasBadNode lc || hasBadNode rc
  | _ => true

/-! ### Promotion tool (`promote_fairness_model.py`)

Python strings are `List Char` (core `String` functions do not reduce in
the kernel); file contents are character lists; the regular expressions of
the source are implemented directly as the matchers they denote. -/

/-- The characters Python's `\s` matches on ASCII text. -/
def isPySpace (c : Char) : Bool :=
  c = ' ' ∨ c = '\t' ∨ c = '\n' ∨ c = '\r' ∨ c = Char.ofNat 11 ∨ c = Char.ofNat 12

/-- Python's `str.strip()`. -/
def pyStrip (l : List Char) : List Char :=
  ((l.dropWhile isPySpace).reverse.dropWhile isPySpace).reverse

/-- Python's `f.readlines()`: split after every newline, keeping it. -/
def readlinesAux (acc : List Char) : List Char → List (List Char)
  | [] => if acc.isEmpty then [] else [acc.reverse]
  | c :: rest =>
      if c = '\n' then (acc.reverse ++ ['\n']) :: readlinesAux [] rest
      else readlinesAux (c :: acc) rest

/-- File content split into lines as Python's `readlines`. -/
def pyReadlines (s : List Char) : List (List Char) := readlinesAux [] s

/-- Python substring containment (`needle in line`). -/
def containsSub (needle : List Char) : List Char → Bool
  | [] => needle.isEmpty
  | c :: rest => needle.isPrefixOf (c :: rest) || containsSub needle rest

/-- The test `re.match(rf"^\s*\[{section}\]\s*$", line)`: the line is the section
header surrounded only by whitespace. -/
def matchesSectionStart (name line : List Char) : Bool :=
  let t := line.dropWhile isPySpace
  let header := '[' :: name ++ [']']
  header.isPrefixOf t && (t.drop header.length).all isPySpace

/-- The test `re.match(r"^\s*\[.*\]\s*$", line)`: any section header line (`.`
does not match a newline; the trailing `\s*` may). -/
def matchesAnySection (line : List Char) : Bool :=
  let u := pyStrip line
  match u with
  | '[' :: rest =>
      rest.getLast? = some ']' && rest.dropLast.all (· ≠ '\n')
  | _ => false

/-- The tool's `find_section_bounds(lines, section_name)`: start index of the header
line and exclusive end index (the next section header that is not a
`[dgbdt.model...` prefix, or end of file). -/
def find_section_bounds (lines : List (List Char)) (name : List Char) :
    Option (ℕ × ℕ) :=
  match lines.findIdx? (matchesSectionStart name) with
  | none => none
  | some s =>
      let rest := lines.drop (s + 1)
      let e := match rest.findIdx? (fun l =>
          matchesAnySection l && ¬ (('[' :: name).isPrefixOf (pyStrip l))) with
        | some k => s + 1 + k
        | none => lines.length
      some (s, e)

/-- Search `key\s*=\s*"([^"]+)"` anchored at the start of `l`, returning
the capture. -/
def keyQuotedAt (key l : List Char) : Option (List Char) :=
  if key.isPrefixOf l then
    match (l.drop key.length).dropWhile isPySpace with
    | '=' :: r2 =>
        match r2.dropWhile isPySpace with
        | '"' :: r4 =>
            let cap := r4.takeWhile (· ≠ '"')
            if cap.isEmpty then none
            else if (r4.drop cap.length).head? = some '"' then some cap else none
        | _ => none
    | _ => none
  else none

/-- Search as `re.search`: the leftmost position where the pattern matches. -/
def searchKeyQuoted (key : List Char) : List Char → Option (List Char)
  | [] => none
  | c :: rest =>
      match keyQuotedAt key (c :: rest) with
      | some cap => some cap
      | none => searchKeyQuoted key rest

/-- The section name `dgbdt.model`. -/
def dgbdtSection : List Char := "dgbdt.model".toList

/-- The tool's `extract_hash_from_config`: the first line of the section yielding a
match, trying `expected_hash` before `hash_b3` on each line. -/
def extract_hash_from_config (content : List Char) : Option (List Char) :=
  let lines := pyReadlines content
  match find_section_bounds lines dgbdtSection with
  | none => none
  | some (s, e) =>
      ((lines.drop s).take (e - s)).findSome? (fun line =>
        match searchKeyQuoted "expected_hash".toList line with
        | some cap => some cap
        | none => searchKeyQuoted "hash_b3".toList line)

/-- The line test `re.match(rf"^\s*{key}\s*=", line)`. -/
def keyLineMatch (key line : List Char) : Bool :=
  let t := line.dropWhile isPySpace
  key.isPrefixOf t && ((t.drop key.length).dropWhile isPySpace).head? = some '='

/-- The rewriting core of `update_config_section`, producing the new line
list (`new_lines` in the source; the caller joins and writes it, and the
dry-run printing is handled by the caller): `none` is the `ValueError` for
a missing section. -/
def update_config_section (content model_path new_hash : List Char) :
    Option (List (List Char)) :=
  let lines := pyReadlines content
  match find_section_bounds lines dgbdtSection with
  | none => none
  | some (s, e) =>
      let sect := (lines.drop s).take (e - s)
      let hash_key := if sect.any (containsSub "hash_b3".toList) then
          "hash_b3".toList else "expected_hash".toList
      let pathLine := "path = \"".toList ++ model_path ++ "\"\n".toList
      let hashLine := hash_key ++ " = \"".toList ++ new_hash ++ "\"\n".toList
      let updated0 := sect.map (fun line =>
        if keyLineMatch "path".toList line then pathLine
        else if keyLineMatch hash_key line then hashLine
        else line)
      let updated1 := if sect.any (keyLineMatch "path".toList) then updated0
        else updated0.insertIdx 1 pathLine
      let updated2 := if sect.any (keyLineMatch hash_key) then updated1
        else updated1 ++ [hashLine]
      some (lines.take s ++ updated2 ++ lines.drop e)

/-- ASCII lower-casing, as `str.lower()` acts on hex digests. -/
def pyLower (l : List Char) : List Char :=
  l.map (fun c => if 'A' ≤ c ∧ c ≤ 'Z' then Char.ofNat (c.toNat + 32) else c)

/-- The normalization `args.runtime_dest.replace("\\", "/")`. -/
def backslashToSlash (l : List Char) : List Char :=
  l.map (fun c => if c = '\\' then '/' else c)

/-- The file system visible to the promotion tool: file contents by path,
plus the set of existing directories (POSIX path semantics). -/
structure FS where
  files : List (List Char × List Char)
  dirs : List (List Char)

/-- Read a file. -/
def fsRead (fs : FS) (p : List Char) : Option (List Char) := dictGet fs.files p

/-- File existence as `Path.exists()`. -/
def fsExists (fs : FS) (p : List Char) : Bool := (fsRead fs p).isSome

/-- Create or overwrite a file. -/
def fsWrite (fs : FS) (p c : List Char) : FS :=
  if (dictGet fs.files p).isSome then
    { fs with files := fs.files.map (fun f => if f.1 = p then (p, c) else f) }
  else { fs with files := fs.files ++ [(p, c)] }

/-- Split a POSIX path on `/`. -/
def splitSlash : List Char → List (List Char)
  | l =>
    (readlinesAux [] (l.map (fun c => if c = '/' then '\n' else c))).map
      (fun seg => seg.filter (· ≠ '\n'))

/-- Rebuild a path from components. -/
def joinSlash : List (List Char) → List Char
  | [] => []
  | [x] => x
  | x :: y :: rest => x ++ '/' :: joinSlash (y :: rest)

/-- The call `Path(dest).parent.mkdir(parents=True, exist_ok=True)`: afterwards
every ancestor of the parent directory of `dest` exists (directory
existence is membership in `dirs`; pre-existing entries are tolerated and
never an error). -/
def mkdirParents (fs : FS) (dest : List Char) : FS :=
  { fs with
    dirs := fs.dirs ++
      ((List.range (splitSlash dest).dropLast.length).map
        (fun i => joinSlash ((splitSlash dest).dropLast.take (i + 1)))) }

/-- The command-line arguments of the promotion tool. -/
structure Args where
  model : List Char
  runtime_dest : List Char
  config : List Char
  allow_same_hash : Bool
  dry_run : Bool

/-- Steps of `main()` after the guard: create the destination's parent
directories, copy the model unless dry-run, rewrite the config section
(`ValueError`, exiting with code 1, when the section is missing), and
write the config unless dry-run. -/
def promoteFinish (a : Args) (destStr newHash : List Char) (fs : FS) : FS × ℕ :=
  let fs1 := mkdirParents fs a.runtime_dest
  let fs2 := if a.dry_run then fs1
    else fsWrite fs1 a.runtime_dest ((fsRead fs a.model).getD [])
  match update_config_section ((fsRead fs2 a.config).getD []) destStr newHash with
  | none => (fs2, 1)
  | some newLines =>
      if a.dry_run then (fs2, 0) else (fsWrite fs2 a.config newLines.flatten, 0)

/-- The `main()` of `promote_fairness_model.py` as a state transition on the
file system, returning the new state and the process exit code. -/
def promoteMain (a : Args) (fs : FS) : FS × ℕ :=
  if ¬ fsExists fs a.model then (fs, 1)
  else
    let destStr := backslashToSlash a.runtime_dest
    if ¬ "crates/ai_registry/models/".toList.isPrefixOf destStr then (fs, 1)
    else if ¬ fsExists fs a.config then (fs, 1)
    else
      let newHash := computeBlake3Hash (strBytes ((fsRead fs a.model).getD []))
      match extract_hash_from_config ((fsRead fs a.config).getD []) with
      | some currentHash =>
          if pyLower newHash = pyLower currentHash ∧ ¬ a.allow_same_hash then
            (fs, 2)
          else promoteFinish a destStr newHash fs
      | none => promoteFinish a destStr newHash fs

/-! ## Supporting lemmas -/

theorem pyRound_intCast (n : ℤ) : pyRound (n : ℚ) = n := by
  simp [pyRound, Int.floor_intCast]

/-- On an exact half-integer, Python's `round` picks the even neighbour. -/
theorem pyRound_int_add_half (n : ℤ) :
    pyRound ((n : ℚ) + 1/2) = if n % 2 = 0 then n else n + 1 := by
  have hfl : ⌊(n : ℚ) + 1/2⌋ = n := by
    rw [Int.floor_int_add]
    norm_num
  simp only [pyRound, hfl]
  norm_num

example : pyRound (5/2) = 2 := by
  have := pyRound_int_add_half 2
  norm_num at this
  exact this

example : specRoundHalfAway (5/2) = 3 := by
  unfold specRoundHalfAway
  norm_num

example : pyIntTrunc (13107 + 1/5) = 13107 := by
  unfold pyIntTrunc
  norm_num

/-- SHA-256 NIST test vector for `"abc"`. -/
example :
    bytesToHex (sha256 (strBytes "abc".toList)) =
      "ba7816bf8f01cfea414140de5dae2223b00361a396177a9cb410ff61f20015ad".toList := by
  decide

/-- SHA-256 of the empty message. -/
example :
    bytesToHex (sha256 []) =
      "e3b0c44298fc1c149afbf4c8996fb92427ae41e4649b934ca495991b7852b855".toList := by
  decide

/-- BLAKE3 official test vector for the empty input. -/
example :
    blake3Hex [] =
      "af1349b9f5f9a1a6a0404dea36dcc9499bcb25c9adc112b7cc9a93cae41f3262".toList := by
  decide

/-- BLAKE3 of `"abc"`. -/
example :
    blake3Hex (strBytes "abc".toList) =
      "6437b3ac38465133ffb63b75273a8db548c558465d79db03fd359c6cd5bd9d85".toList := by
  decide

/-- Canonical serialization of a one-tree document, cross-checked against
`json.dumps(doc, sort_keys=True, separators=(",", ":"))`. -/
example :
    pyDumps (.obj
      [("version".toList, .num 1),
       ("scale".toList, .num 1000000),
       ("trees".toList, .arr
         [.obj [("nodes".toList, .arr
                   [.obj [("id".toList, .num 0), ("left".toList, .num (-1)),
                          ("right".toList, .num (-1)),
                          ("feature_idx".toList, .num (-1)),
                          ("threshold".toList, .num 0),
                          ("leaf".toList, .num 250000)]]),
                ("weight".toList, .num 50000)]]),
       ("bias".toList, .num 7),
       ("post_scale".toList, .num 1000000)]) =
      ("\x7b\"bias\":7,\"post_scale\":1000000,\"scale\":1000000,\"trees\":[\x7b\"nodes\":[\x7b\"feature_idx\":-1,\"id\":0,\"leaf\":250000,\"left\":-1,\"right\":-1,\"threshold\":0\x7d],\"weight\":50000\x7d],\"version\":1\x7d").toList := by
  decide

/-- The same document digests to the cross-checked BLAKE3 value. -/
example :
    computeModelHashB3 (.obj
      [("version".toList, .num 1),
       ("scale".toList, .num 1000000),
       ("trees".toList, .arr
         [.obj [("nodes".toList, .arr
                   [.obj [("id".toList, .num 0), ("left".toList, .num (-1)),
                          ("right".toList, .num (-1)),
                          ("feature_idx".toList, .num (-1)),
                          ("threshold".toList, .num 0),
                          ("leaf".toList, .num 250000)]]),
                ("weight".toList, .num 50000)]]),
       ("bias".toList, .num 7),
       ("post_scale".toList, .num 1000000)]) =
      some "d50c1844508ae3ec481b1bd31352370aee35e60adf5f6547f4f7d69a05b3e39a".toList := by
  decide

/-- A number with its low `k` bits clear or-ed with a `k`-bit number is
their sum. -/
theorem lor_high_low (k : Nat) :
    ∀ a b : Nat, b < 2 ^ k → (a * 2 ^ k) ||| b = a * 2 ^ k + b := by
  induction k with
  | zero =>
    intro a b hb
    interval_cases b
    simp
  | succ k ih =>
    intro a b hb
    have hdecomp := Nat.bit_decomp b
    have hhigh : a * 2 ^ (k + 1) = Nat.bit false (a * 2 ^ k) := by
      simp [Nat.bit, pow_succ]
      ring
    have hdiv : b.div2 < 2 ^ k := by
      rw [Nat.div2_val]
      omega
    calc a * 2 ^ (k + 1) ||| b
        = Nat.bit false (a * 2 ^ k) ||| Nat.bit b.bodd b.div2 := by
          rw [← hhigh, hdecomp]
      _ = Nat.bit (false || b.bodd) ((a * 2 ^ k) ||| b.div2) := by rw [Nat.lor_bit]
      _ = Nat.bit b.bodd (a * 2 ^ k + b.div2) := by rw [ih _ _ hdiv, Bool.false_or]
      _ = a * 2 ^ (k + 1) + b := by
          rw [Nat.bit_val]
          have h3 : a * 2 ^ (k + 1) = 2 * (a * 2 ^ k) := by ring
          have h4 : Nat.bit b.bodd b.div2 = 2 * b.div2 + b.bodd.toNat := Nat.bit_val _ _
          omega

/-! ## Claim C7 — canonical hasher projects exactly the five fields -/

/-- C7: `_compute_model_hash_b3` digests the canonical serialization of
exactly the five-field projection `{bias, post_scale, scale, trees,
version}` (keys sorted, no insignificant whitespace); hence hashing is a
function of those five values alone, and two documents that agree on them
— whatever other fields either carries — have equal digests.  (Hashing the
same document twice trivially yields the same digest, the hasher being a
pure function.) -/
theorem canonicalHash_projects_five_fields
    (fs1 fs2 : List (List Char × Json)) (b p s t v : Json)
    (h1b : jGet fs1 "bias".toList = some b)
    (h1p : jGet fs1 "post_scale".toList = some p)
    (h1s : jGet fs1 "scale".toList = some s)
    (h1t : jGet fs1 "trees".toList = some t)
    (h1v : jGet fs1 "version".toList = some v)
    (h2b : jGet fs2 "bias".toList = some b)
    (h2p : jGet fs2 "post_scale".toList = some p)
    (h2s : jGet fs2 "scale".toList = some s)
    (h2t : jGet fs2 "trees".toList = some t)
    (h2v : jGet fs2 "version".toList = some v) :
    computeModelHashB3 (.obj fs1) =
      some (blake3Hex (strBytes (pyDumps (canonicalProjection b p s t v)))) ∧
    computeModelHashB3 (.obj fs1) = computeModelHashB3 (.obj fs2) := by
  have e1 : computeModelHashB3 (.obj fs1) =
      some (blake3Hex (strBytes (pyDumps (canonicalProjection b p s t v)))) := by
    simp only [computeModelHashB3]
    rw [h1b, h1p, h1s, h1t, h1v]
    rfl
  have e2 : computeModelHashB3 (.obj fs2) =
      some (blake3Hex (strBytes (pyDumps (canonicalProjection b p s t v)))) := by
    simp only [computeModelHashB3]
    rw [h2b, h2p, h2s, h2t, h2v]
    rfl
  exact ⟨e1, e1.trans e2.symm⟩

/-- Witness for C7: a five-field document and the same document carrying
two extra metadata fields (`features`, `target`) in a different key order
hash identically. -/
theorem canonicalHash_projects_five_fields_witness :
    computeModelHashB3 (.obj
      [("bias".toList, .num 7), ("post_scale".toList, .num 1000000),
       ("scale".toList, .num 1000000), ("trees".toList, .arr []),
       ("version".toList, .num 1)]) =
    computeModelHashB3 (.obj
      [("version".toList, .num 1), ("features".toList, .arr []),
       ("scale".toList, .num 1000000), ("trees".toList, .arr []),
       ("target".toList, .str "fairness_score_scaled".toList),
       ("bias".toList, .num 7), ("post_scale".toList, .num 1000000)]) :=
  (canonicalHash_projects_five_fields
    [("bias".toList, .num 7), ("post_scale".toList, .num 1000000),
     ("scale".toList, .num 1000000), ("trees".toList, .arr []),
     ("version".toList, .num 1)]
    [("version".toList, .num 1), ("features".toList, .arr []),
     ("scale".toList, .num 1000000), ("trees".toList, .arr []),
     ("target".toList, .str "fairness_score_scaled".toList),
     ("bias".toList, .num 7), ("post_scale".toList, .num 1000000)]
    (.num 7) (.num 1000000) (.num 1000000) (.arr []) (.num 1)
    rfl rfl rfl rfl rfl rfl rfl rfl rfl rfl).2

/-! ## Claim C1 — which bytes the promotion digest covers -/

/-- The C1 counterexample digests, cross-checked against the reference
BLAKE3 of the two candidate files. -/
example :
    computeBlake3Hash (strBytes (pyDumps
        (canonicalProjection (.num 0) (.num 1) (.num 1) (.arr []) (.num 1)))) =
      "a8fdafc03ab2103bc0946ae857aecbb3e4202f653a9f1eebd9a8a963e8b5420b".toList ∧
    computeBlake3Hash (strBytes (pyDumps (.obj
        [("bias".toList, .num 0), ("features".toList, .arr []),
         ("post_scale".toList, .num 1), ("scale".toList, .num 1),
         ("trees".toList, .arr []), ("version".toList, .num 1)]))) =
      "c3670dbb74594e00ab2c4a70cddfbf1275c2eba5dda5fd4891a604444c2853cf".toList := by
  constructor
  · decide
  · decide

/-- C1 counterexample: two candidate model files whose canonical
projections agree — they differ only in the non-hashed `features` metadata
field — get DIFFERENT digests from the promotion tool, because
`compute_blake3_hash` digests the raw file bytes, not the canonical
projection.  The claim's "same promotion digest" fails at this input. -/
theorem promotion_digest_not_projection :
    computeModelHashB3
        (canonicalProjection (.num 0) (.num 1) (.num 1) (.arr []) (.num 1)) =
      computeModelHashB3 (.obj
        [("bias".toList, .num 0), ("features".toList, .arr []),
         ("post_scale".toList, .num 1), ("scale".toList, .num 1),
         ("trees".toList, .arr []), ("version".toList, .num 1)]) ∧
    jGet [("bias".toList, Json.num 0), ("features".toList, Json.arr []),
         ("post_scale".toList, Json.num 1), ("scale".toList, Json.num 1),
         ("trees".toList, Json.arr []), ("version".toList, Json.num 1)]
        "features".toList = some (.arr []) ∧
    computeBlake3Hash (strBytes (pyDumps
        (canonicalProjection (.num 0) (.num 1) (.num 1) (.arr []) (.num 1)))) ≠
      computeBlake3Hash (strBytes (pyDumps (.obj
        [("bias".toList, .num 0), ("features".toList, .arr []),
         ("post_scale".toList, .num 1), ("scale".toList, .num 1),
         ("trees".toList, .arr []), ("version".toList, .num 1)]))) := by
  refine ⟨by decide, rfl, by decide⟩

/-- C1 amended: the digest the Promotion Guard compares is the BLAKE3 hash
of the candidate file's raw bytes (`compute_blake3_hash`), so it equals the
Canonical Hasher's digest precisely for files that are byte-for-byte the
canonical serialization of their own five-field projection; extra metadata
bytes change it (see the counterexample). -/
theorem promotion_digest_is_raw_file_hash (b p s t v : Json) :
    computeModelHashB3 (canonicalProjection b p s t v) =
      some (computeBlake3Hash (strBytes (pyDumps (canonicalProjection b p s t v)))) :=
  rfl

/-! ## Claim C6 — the validation-split decision -/

/-- Every SHA-256 output byte is below 256. -/
theorem sha256_getD_lt (msg : List Nat) (i : ℕ) : (sha256 msg).getD i 0 < 256 := by
  have hmem : ∀ b ∈ sha256 msg, b < 256 := by
    intro b hb
    simp only [sha256, List.mem_flatten, List.mem_map] at hb
    obtain ⟨l, ⟨w, _, rfl⟩, hbl⟩ := hb
    simp only [be32, List.mem_cons, List.not_mem_nil, or_false] at hbl
    rcases hbl with h | h | h | h <;> omega
  rcases lt_or_le i (sha256 msg).length with h | h
  · rw [List.getD_eq_getElem _ _ h]
    exact hmem _ (List.getElem_mem h)
  · rw [List.getD_eq_default _ _ h]
    norm_num

/-- The bucket really is the big-endian 16-bit read of the first two
digest bytes. -/
theorem shaBucket_eq (key : List Nat) :
    shaBucket key = (sha256 key).getD 0 0 * 256 + (sha256 key).getD 1 0 := by
  have hlt : (sha256 key).getD 1 0 < 2 ^ 8 := by
    have := sha256_getD_lt key 1
    norm_num at this ⊢
    exact this
  unfold shaBucket
  rw [Nat.shiftLeft_eq, lor_high_low 8 _ _ hlt]
  norm_num

/-- The Python-evaluated threshold `int(0.2 * 65536)` is 13107. -/
theorem valThreshold_eq : valThreshold = 13107 := by
  norm_num [valThreshold, pyIntTrunc, pyFloat02]

/-- C6: the split decision holds exactly when the first two bytes of the
SHA-256 digest of the key, read as a big-endian 16-bit integer, are below
`⌊0.2 * 65536⌋`; and the per-key decisions of a row set are permuted along
with any permutation of the rows (the decision is a pure function of the
key, so re-ordering the row set never changes any row's decision). -/
theorem is_val_spec :
    (∀ key : List Nat,
        is_val key = true ↔
          (((sha256 key).getD 0 0 * 256 + (sha256 key).getD 1 0 : ℤ) <
            ⌊(2/10 : ℚ) * 65536⌋)) ∧
    (∀ rows rows' : List (List Nat), rows.Perm rows' →
        (rows.map is_val).Perm (rows'.map is_val)) := by
  constructor
  · intro key
    have hspec : ⌊(2/10 : ℚ) * 65536⌋ = (13107 : ℤ) := by norm_num
    rw [is_val, decide_eq_true_iff, valThreshold_eq, shaBucket_eq, hspec]
    push_cast
    rfl
  · intro rows rows' h
    exact h.map is_val

/-- Witness for C6: swapping two concrete row keys permutes the decision
list accordingly (each key keeps its own decision). -/
theorem is_val_spec_witness :
    ([strBytes "v1|42|2024-01-01T00:00:00Z".toList,
      strBytes "v2|7|2024-01-02T00:00:00Z".toList].map is_val).Perm
      ([strBytes "v2|7|2024-01-02T00:00:00Z".toList,
        strBytes "v1|42|2024-01-01T00:00:00Z".toList].map is_val) :=
  is_val_spec.2 _ _ (by decide)

/-! ## Structure of the quantizer's node array (shared by C2, C5) -/

theorem setLR_length (ns : List QNode) (i : ℕ) (l r : ℤ) :
    (setLR ns i l r).length = ns.length := by
  unfold setLR
  cases h : ns[i]? <;> simp

theorem setLR_getElem?_ne (ns : List QNode) (i : ℕ) (l r : ℤ) (j : ℕ)
    (hj : j ≠ i) : (setLR ns i l r)[j]? = ns[j]? := by
  unfold setLR
  cases h : ns[i]? with
  | none => rfl
  | some n => exact List.getElem?_set_ne (by omega)

theorem setLR_getElem?_self (ns : List QNode) (i : ℕ) (l r : ℤ) (n : QNode)
    (h : ns[i]? = some n) :
    (setLR ns i l r)[i]? = some { n with left := l, right := r } := by
  have hlen : i < ns.length := by
    by_contra hge
    rw [List.getElem?_eq_none (by omega)] at h
    cases h
  unfold setLR
  rw [h, List.getElem?_set_self']
  simp [h]

/-- Invariant of the `visit` worker: the result extends the accumulator,
returns the pre-order id `acc.length`, and every node in the appended
region carries its own index as `id`, with both child indices of an
internal node strictly larger than its own. -/
theorem visit_spec (t : RawTree) (acc : List QNode) :
    ∀ ns i, visit t acc = some (ns, i) →
      i = acc.length ∧ acc.length < ns.length ∧
      (∀ j, j < acc.length → ns[j]? = acc[j]?) ∧
      (∀ j node, acc.length ≤ j → ns[j]? = some node →
        node.id = j ∧
        (node.leaf = none → (j : ℤ) < node.left ∧ (j : ℤ) < node.right)) := by
  induction t, acc using visit.induct with
  | case1 lv sf th lc rc nodes =>
    intro ns i h
    simp only [visit, Option.some.injEq, Prod.mk.injEq] at h
    obtain ⟨hns, hi⟩ := h
    subst hns hi
    refine ⟨rfl, by simp, ?_, ?_⟩
    · intro j hj
      exact List.getElem?_append_left hj
    · intro j node hj hget
      rcases eq_or_lt_of_le hj with hj0 | hj1
      · rw [← hj0, List.getElem?_concat_length] at hget
        cases hget
        refine ⟨hj0.symm ▸ rfl, ?_⟩
        intro hleaf
        simp at hleaf
      · rw [List.getElem?_append_right (by omega)] at hget
        rw [List.getElem?_eq_none (by simp; omega)] at hget
        cases hget
  | case2 sf th lc rc nodes hfname =>
    intro ns i h
    simp [visit, hfname] at h
  | case3 sf th lc rc nodes fname hfname htscale =>
    intro ns i h
    simp [visit, hfname, htscale] at h
  | case4 sf th lc rc nodes fname hfname tscale htscale hvl ihl =>
    intro ns i h
    simp [visit, hfname, htscale, hvl] at h
  | case5 sf th lc rc nodes fname hfname tscale htscale nl lid hvl hvr ihl ihr =>
    intro ns i h
    simp [visit, hfname, htscale, hvl, hvr] at h
  | case6 sf th lc rc nodes fname hfname tscale htscale nl lid hvl nr rid hvr ihl ihr =>
    intro ns i h
    simp only [visit, hfname, htscale, hvl, hvr, Option.some.injEq,
      Prod.mk.injEq] at h
    obtain ⟨hns, hi⟩ := h
    subst hns hi
    obtain ⟨hlid, hlen1, hpre1, hprop1⟩ := ihl _ _ hvl
    obtain ⟨hrid, hlen2, hpre2, hprop2⟩ := ihr _ _ hvr
    have hn1len : (nodes ++
        [({ id := nodes.length, left := -1, right := -1, feature_idx := sf,
            threshold := pyRound (th * (tscale : ℚ)), leaf := none } : QNode)]).length =
        nodes.length + 1 := by simp
    refine ⟨rfl, ?_, ?_, ?_⟩
    · rw [setLR_length]
      omega
    · intro j hj
      rw [setLR_getElem?_ne _ _ _ _ _ (by omega)]
      rw [hpre2 j (by omega), hpre1 j (by omega)]
      exact List.getElem?_append_left hj
    · intro j node hj hget
      by_cases hj0 : j = nodes.length
      · subst hj0
        have hparent : nr[nodes.length]? = some
            ({ id := nodes.length, left := -1, right := -1, feature_idx := sf,
               threshold := pyRound (th * (tscale : ℚ)), leaf := none } : QNode) := by
          rw [hpre2 _ (by omega), hpre1 _ (by omega)]
          exact List.getElem?_concat_length _ _
        rw [setLR_getElem?_self _ _ _ _ _ hparent] at hget
        cases hget
        refine ⟨rfl, fun _ => ?_⟩
        constructor
        · simp only []
          omega
        · simp only []
          omega
      · rw [setLR_getElem?_ne _ _ _ _ _ hj0] at hget
        by_cases hcase : j < nl.length
        · rw [hpre2 j hcase] at hget
          exact hprop1 j node (by omega) hget
        · exact hprop2 j node (by omega) hget
  | case7 t x hex1 hex2 =>
    intro ns i h
    obtain ⟨lv, sf, th, lc, rc⟩ := t
    rcases lv with _ | lv
    · rcases sf with _ | sf <;> rcases th with _ | th <;>
        rcases lc with _ | lc <;> rcases rc with _ | rc
      all_goals first
        | exact (hex2 _ _ _ _ rfl).elim
        | simp [visit] at h
    · exact (hex1 lv sf th lc rc rfl).elim

/-! ## Claim C5 — pre-order ids and forward child references -/

/-- C5: in every node array the quantizer produces, the node stored at
position `i` has `id = i` (pre-order numbering, root at index 0), and every
internal node's `left` and `right` indices are strictly larger than its own
index, so child references always point forward (acyclicity). -/
theorem quantize_preorder_invariant (t : RawTree) (ns : List QNode)
    (h : quantize_tree_structure t = some ns) :
    (∀ (i : ℕ) (node : QNode), ns[i]? = some node → node.id = i) ∧
    (∀ (i : ℕ) (node : QNode), ns[i]? = some node → node.leaf = none →
      (i : ℤ) < node.left ∧ (i : ℤ) < node.right) := by
  rcases hvis : visit t [] with _ | ⟨ms, k⟩
  · rw [quantize_tree_structure, hvis] at h
    cases h
  · rw [quantize_tree_structure, hvis] at h
    simp only [Option.map_some', Option.some.injEq] at h
    subst h
    obtain ⟨-, -, -, hprop⟩ := visit_spec t [] ms k hvis
    exact ⟨fun i node hget => (hprop i node (Nat.zero_le i) hget).1,
           fun i node hget hleaf => (hprop i node (Nat.zero_le i) hget).2 hleaf⟩

theorem pyIndex_feature_zero :
    pyIndex FEATURE_COLS 0 = some "uptime_ratio_7d".toList := by decide

theorem dictGet_feature_zero :
    dictGet FEATURE_SCALE "uptime_ratio_7d".toList = some SCALE := by decide

theorem pyRound_tenth_scale : pyRound ((1/10 : ℚ) * ((SCALE : ℕ) : ℚ)) = 100000 := by
  rw [show (1/10 : ℚ) * ((SCALE : ℕ) : ℚ) = ((100000 : ℤ) : ℚ) by norm_num [SCALE],
    pyRound_intCast]

theorem pyRound_half_scale : pyRound ((1/2 : ℚ) * ((SCALE : ℕ) : ℚ)) = 500000 := by
  rw [show (1/2 : ℚ) * ((SCALE : ℕ) : ℚ) = ((500000 : ℤ) : ℚ) by norm_num [SCALE],
    pyRound_intCast]

theorem pyRound_nine_tenths_scale :
    pyRound ((9/10 : ℚ) * ((SCALE : ℕ) : ℚ)) = 900000 := by
  rw [show (9/10 : ℚ) * ((SCALE : ℕ) : ℚ) = ((900000 : ℤ) : ℚ) by norm_num [SCALE],
    pyRound_intCast]

/-- The spec's §8 scenario tree — split on feature 0 at 1/2, leaves 1/10
and 9/10, scale 1,000,000 — evaluated through the `visit` worker. -/
theorem visit_scenario_eval :
    visit
      (.mk none (some 0) (some (1/2))
        (some (.mk (some (1/10)) none none none none))
        (some (.mk (some (9/10)) none none none none))) [] =
      some
        ([⟨0, 1, 2, 0, 500000, none⟩,
          ⟨1, -1, -1, -1, 0, some 100000⟩,
          ⟨2, -1, -1, -1, 0, some 900000⟩], 0) := by
  simp [visit, pyIndex, dictGet, FEATURE_SCALE,
    FEATURE_COLS, pyRound_tenth_scale, pyRound_half_scale,
    pyRound_nine_tenths_scale, setLR]
  constructor
  · rw [show (2⁻¹ : ℚ) * ((SCALE : ℕ) : ℚ) = ((500000 : ℤ) : ℚ) by
      norm_num [SCALE], pyRound_intCast]
  · rw [show (10⁻¹ : ℚ) * ((SCALE : ℕ) : ℚ) = ((100000 : ℤ) : ℚ) by
      norm_num [SCALE], pyRound_intCast]

/-- The scenario tree quantizes to the node array of the spec's §8
scenario. -/
theorem quantize_scenario_eval :
    quantize_tree_structure
      (.mk none (some 0) (some (1/2))
        (some (.mk (some (1/10)) none none none none))
        (some (.mk (some (9/10)) none none none none))) =
      some
        [⟨0, 1, 2, 0, 500000, none⟩,
         ⟨1, -1, -1, -1, 0, some 100000⟩,
         ⟨2, -1, -1, -1, 0, some 900000⟩] := by
  simp only [quantize_tree_structure, visit_scenario_eval, Option.map_some']

/-- Witness for C5 at the spec's scenario tree. -/
theorem quantize_preorder_invariant_witness :
    quantize_tree_structure
        (.mk none (some 0) (some (1/2))
          (some (.mk (some (1/10)) none none none none))
          (some (.mk (some (9/10)) none none none none))) =
      some
        [⟨0, 1, 2, 0, 500000, none⟩,
         ⟨1, -1, -1, -1, 0, some 100000⟩,
         ⟨2, -1, -1, -1, 0, some 900000⟩] ∧
    (∀ (i : ℕ) (node : QNode),
      ([⟨0, 1, 2, 0, 500000, none⟩,
        ⟨1, -1, -1, -1, 0, some 100000⟩,
        ⟨2, -1, -1, -1, 0, some 900000⟩] : List QNode)[i]? = some node →
        node.id = i) :=
  ⟨quantize_scenario_eval,
   (quantize_preorder_invariant _ _ quantize_scenario_eval).1⟩

/-! ## Claim C2 — the quantizer's rounding rule -/

/-- C2 counterexample: the leaf value `1/400000` scales to the exact
half-integer `5/2`; the quantizer emits 2 (Python's `round`, ties to
even), while round-half-away-from-zero — what the claim demands on every
half-integer — gives 3.  The emitted integer IS the even neighbour. -/
theorem quantize_rounding_counterexample :
    quantize_tree_structure (.mk (some (1/400000)) none none none none) =
      some [⟨0, -1, -1, -1, 0, some 2⟩] ∧
    (1/400000 : ℚ) * ((SCALE : ℕ) : ℚ) = 5/2 ∧
    specRoundHalfAway ((1/400000 : ℚ) * ((SCALE : ℕ) : ℚ)) = 3 := by
  have hq : (1/400000 : ℚ) * ((SCALE : ℕ) : ℚ) = ((2 : ℤ) : ℚ) + 1/2 := by
    norm_num [SCALE]
  refine ⟨?_, by norm_num [SCALE], ?_⟩
  · have hv : pyRound ((1/400000 : ℚ) * ((SCALE : ℕ) : ℚ)) = 2 := by
      rw [hq, pyRound_int_add_half]
      norm_num
    simp only [quantize_tree_structure, visit, Option.map_some']
    rw [hv]
    simp
  · rw [hq]
    unfold specRoundHalfAway
    rw [if_pos (by norm_num)]
    norm_num

/-- C2 amended: leaf values are emitted as `round(v * S_value)` and
thresholds as `round(t * S_feature[feature_idx])` where `round` is
Python's round-half-to-even (banker's rounding): on every input whose
scaled value is an exact half-integer the quantized integer is the EVEN
neighbour, not the one farther from zero. -/
theorem quantize_rounding_amended :
    (∀ (lv : ℚ) (sf : Option ℤ) (th : Option ℚ) (lc rc : Option RawTree)
        (nodes : List QNode),
        visit (.mk (some lv) sf th lc rc) nodes =
          some (nodes ++ [⟨nodes.length, -1, -1, -1, 0,
            some (pyRound (lv * ((SCALE : ℕ) : ℚ)))⟩], nodes.length)) ∧
    (∀ (sf : ℤ) (th : ℚ) (lc rc : RawTree) (nodes ns : List QNode) (i : ℕ),
        visit (.mk none (some sf) (some th) (some lc) (some rc)) nodes =
          some (ns, i) →
        ∃ fname tscale node,
          pyIndex FEATURE_COLS sf = some fname ∧
          dictGet FEATURE_SCALE fname = some tscale ∧
          ns[nodes.length]? = some node ∧
          node.threshold = pyRound (th * (tscale : ℚ)) ∧
          node.feature_idx = sf ∧ node.leaf = none) ∧
    (∀ n : ℤ, pyRound ((n : ℚ) + 1/2) = if n % 2 = 0 then n else n + 1) := by
  refine ⟨fun lv sf th lc rc nodes => rfl, ?_, pyRound_int_add_half⟩
  intro sf th lc rc nodes ns i h
  rcases hpy : pyIndex FEATURE_COLS sf with _ | fname
  · simp [visit, hpy] at h
  rcases hd : dictGet FEATURE_SCALE fname with _ | tscale
  · simp [visit, hpy, hd] at h
  rcases hvl : visit lc (nodes ++
      [({ id := nodes.length, left := -1, right := -1, feature_idx := sf,
          threshold := pyRound (th * (tscale : ℚ)), leaf := none } : QNode)])
    with _ | ⟨nl, lid⟩
  · simp [visit, hpy, hd, hvl] at h
  rcases hvr : visit rc nl with _ | ⟨nr, rid⟩
  · simp [visit, hpy, hd, hvl, hvr] at h
  simp only [visit, hpy, hd, hvl, hvr, Option.some.injEq, Prod.mk.injEq] at h
  obtain ⟨hns, hi⟩ := h
  subst hns
  obtain ⟨-, hlen1, hpre1, -⟩ := visit_spec _ _ _ _ hvl
  obtain ⟨-, hlen2, hpre2, -⟩ := visit_spec _ _ _ _ hvr
  have hn1len : (nodes ++
      [({ id := nodes.length, left := -1, right := -1, feature_idx := sf,
          threshold := pyRound (th * (tscale : ℚ)), leaf := none } : QNode)]).length =
      nodes.length + 1 := by simp
  have hparent : nr[nodes.length]? = some
      ({ id := nodes.length, left := -1, right := -1, feature_idx := sf,
         threshold := pyRound (th * (tscale : ℚ)), leaf := none } : QNode) := by
    rw [hpre2 _ (by omega), hpre1 _ (by omega)]
    exact List.getElem?_concat_length _ _
  exact ⟨fname, tscale, _, rfl, hd,
    setLR_getElem?_self _ _ _ _ _ hparent, rfl, rfl, rfl⟩

/-- Witness for C2 at the spec's scenario tree: the root split node holds
`threshold = round((1/2) * S)` for feature 0. -/
theorem quantize_rounding_amended_witness :
    ∃ fname tscale node,
      pyIndex FEATURE_COLS 0 = some fname ∧
      dictGet FEATURE_SCALE fname = some tscale ∧
      ([⟨0, 1, 2, 0, 500000, none⟩,
        ⟨1, -1, -1, -1, 0, some 100000⟩,
        ⟨2, -1, -1, -1, 0, some 900000⟩] : List QNode)[([] : List QNode).length]? =
        some node ∧
      node.threshold = pyRound ((1/2 : ℚ) * (tscale : ℚ)) ∧
      node.feature_idx = 0 ∧ node.leaf = none :=
  quantize_rounding_amended.2.1 0 (1/2)
    (.mk (some (1/10)) none none none none)
    (.mk (some (9/10)) none none none none)
    [] _ 0 visit_scenario_eval

/-! ## Claim C8 — when the quantizer fails -/

theorem pyIndex_mem {α : Type} (xs : List α) (i : ℤ) (x : α)
    (h : pyIndex xs i = some x) : x ∈ xs := by
  unfold pyIndex at h
  split at h
  · exact List.getElem?_mem h
  · split at h
    · cases h
    · exact List.getElem?_mem h

theorem dictGet_feature_scale (f : List Char) (hf : f ∈ FEATURE_COLS) :
    dictGet FEATURE_SCALE f = some SCALE := by
  fin_cases hf <;> decide

/-- The worker `visit` raises exactly on trees containing a reachable node that lacks
`leaf_value` and either misses one of the four split keys or carries a
feature index Python cannot resolve. -/
theorem visit_none_iff_hasBadNode (t : RawTree) (acc : List QNode) :
    visit t acc = none ↔ hasBadNode t = true := by
  induction t, acc using visit.induct with
  | case1 lv sf th lc rc nodes =>
    simp [visit, hasBadNode]
  | case2 sf th lc rc nodes hfname =>
    simp [visit, hasBadNode, hfname]
  | case3 sf th lc rc nodes fname hfname htscale =>
    exact absurd (dictGet_feature_scale fname (pyIndex_mem _ _ _ hfname))
      (by simp [htscale])
  | case4 sf th lc rc nodes fname hfname tscale htscale hvl ihl =>
    simp [visit, hasBadNode, hfname, htscale, hvl, ihl.mp hvl]
  | case5 sf th lc rc nodes fname hfname tscale htscale nl lid hvl hvr ihl ihr =>
    simp [visit, hasBadNode, hfname, htscale, hvl, hvr, ihr.mp hvr]
  | case6 sf th lc rc nodes fname hfname tscale htscale nl lid hvl nr rid hvr ihl ihr =>
    rw [hvl] at ihl
    rw [hvr] at ihr
    simp only [reduceCtorEq, false_iff, Bool.not_eq_true] at ihl ihr
    simp [visit, hasBadNode, hfname, htscale, hvl, hvr, ihl, ihr]
  | case7 t x hex1 hex2 =>
    obtain ⟨lv, sf, th, lc, rc⟩ := t
    rcases lv with _ | lv
    · rcases sf with _ | sf <;> rcases th with _ | th <;>
        rcases lc with _ | lc <;> rcases rc with _ | rc
      all_goals first
        | exact (hex2 _ _ _ _ rfl).elim
        | simp [visit, hasBadNode]
    · exact (hex1 lv sf th lc rc rfl).elim

theorem pyRound_zero : pyRound (0 : ℚ) = 0 := by
  simpa using pyRound_intCast 0

theorem pyRound_scale_nat : pyRound ((SCALE : ℕ) : ℚ) = 1000000 := by
  rw [show ((SCALE : ℕ) : ℚ) = ((1000000 : ℤ) : ℚ) by norm_num [SCALE],
    pyRound_intCast]

/-- C8 counterexample: the quantizer does NOT fail on a negative feature
index — Python's negative indexing resolves `-1` to the last feature — and
does NOT fail on a node carrying both a leaf value and split fields (it is
emitted as a leaf).  Both trees quantize successfully, falsifying the
claimed failures. -/
theorem quantize_failure_counterexample :
    (quantize_tree_structure (.mk none (some (-1)) (some 1)
        (some (.mk (some 0) none none none none))
        (some (.mk (some 0) none none none none)))).isSome = true ∧
    pyIndex FEATURE_COLS (-1) = some "peer_reports_quality".toList ∧
    (quantize_tree_structure (.mk (some 0) (some 0) (some 1)
        (some (.mk (some 0) none none none none))
        (some (.mk (some 0) none none none none)))).isSome = true := by
  refine ⟨?_, by decide, ?_⟩
  · have h1 : pyRound ((1 : ℚ) * ((SCALE : ℕ) : ℚ)) = 1000000 := by
      rw [one_mul, pyRound_scale_nat]
    have h0 : pyRound ((0 : ℚ) * ((SCALE : ℕ) : ℚ)) = 0 := by
      rw [zero_mul, pyRound_zero]
    simp [quantize_tree_structure, visit, pyIndex, dictGet, FEATURE_SCALE,
      FEATURE_COLS, setLR, h1, h0]
  · simp [quantize_tree_structure, visit]

/-- C8 amended: the quantizer fails exactly on trees containing a
reachable node that has no `leaf_value` and either misses a split key or
has a feature index outside `[-len(FEATURE_COLS), len(FEATURE_COLS))`
(negative indices within range resolve via Python's indexing from the
end); a node carrying a `leaf_value` together with split fields is
accepted and emitted as a leaf. -/
theorem quantize_failure_amended :
    (∀ t : RawTree, quantize_tree_structure t = none ↔ hasBadNode t = true) ∧
    (∀ (lv : ℚ) (sf : Option ℤ) (th : Option ℚ) (lc rc : Option RawTree),
        hasBadNode (.mk (some lv) sf th lc rc) = false ∧
        (quantize_tree_structure (.mk (some lv) sf th lc rc)).isSome = true) := by
  constructor
  · intro t
    rw [quantize_tree_structure, Option.map_eq_none']
    exact visit_none_iff_hasBadNode t []
  · intro lv sf th lc rc
    exact ⟨rfl, rfl⟩

/-! ## Claim C3 — refusal of a no-op promotion -/

/-- C3: when a pinned digest is present, matches the candidate digest up
to ASCII case, and `--allow-same-hash` is not set, `main` exits with code
2 and the file system is completely untouched — no directory creation, no
model copy, and the config file is byte-identical (the state is returned
unchanged). -/
theorem promote_refuses_same_hash (a : Args) (fs : FS) (c : List Char)
    (hm : fsExists fs a.model = true)
    (hd : "crates/ai_registry/models/".toList.isPrefixOf
      (backslashToSlash a.runtime_dest) = true)
    (hc : fsExists fs a.config = true)
    (hcur : extract_hash_from_config ((fsRead fs a.config).getD []) = some c)
    (heq : pyLower (computeBlake3Hash (strBytes ((fsRead fs a.model).getD []))) =
      pyLower c)
    (hallow : a.allow_same_hash = false) :
    promoteMain a fs = (fs, 2) := by
  have hd' := List.isPrefixOf_iff_prefix.mp hd
  simp at hd'
  simp [promoteMain, hm, hd', hc, hcur, heq, hallow]

/-- Witness for C3: a concrete model file whose BLAKE3 digest matches the
pinned `expected_hash` (stored upper-case, exercising the case-insensitive
comparison) is refused with exit code 2 and an unchanged file system. -/
theorem promote_refuses_same_hash_witness :
    promoteMain
      ⟨"m.json".toList, "crates/ai_registry/models/m.json".toList,
       "config/dlc.toml".toList, false, false⟩
      ⟨[("m.json".toList, "x".toList),
        ("config/dlc.toml".toList,
          ("[dgbdt.model]\npath = \"old\"\nexpected_hash = \"3AE7D805F6789A6402ACB70AD4096A85A56BF6804EAF25C0493AC697548D30B5\"\n").toList)],
       []⟩ =
      (⟨[("m.json".toList, "x".toList),
         ("config/dlc.toml".toList,
           ("[dgbdt.model]\npath = \"old\"\nexpected_hash = \"3AE7D805F6789A6402ACB70AD4096A85A56BF6804EAF25C0493AC697548D30B5\"\n").toList)],
        []⟩, 2) :=
  promote_refuses_same_hash _ _
    "3AE7D805F6789A6402ACB70AD4096A85A56BF6804EAF25C0493AC697548D30B5".toList
    (by decide) (by decide) (by decide) (by decide) (by decide) rfl

/-! ## Claim C10 — directory creation is not suppressed by dry-run -/

theorem fsWrite_dirs (fs : FS) (p c : List Char) : (fsWrite fs p c).dirs = fs.dirs := by
  unfold fsWrite
  split <;> rfl

/-- After the guard, the promotion flow always creates the destination's
parent directories (even in dry-run), and in dry-run mode it writes no
file. -/
theorem promoteFinish_state (a : Args) (d h : List Char) (fs : FS) :
    (promoteFinish a d h fs).1.dirs = (mkdirParents fs a.runtime_dest).dirs ∧
    (a.dry_run = true → (promoteFinish a d h fs).1.files = fs.files) := by
  by_cases hdry : a.dry_run = true
  · simp only [promoteFinish, hdry, if_true]
    cases hupd : update_config_section
        ((fsRead (mkdirParents fs a.runtime_dest) a.config).getD []) d h with
    | none => simp [hupd, mkdirParents]
    | some nl => simp [hupd, mkdirParents]
  · rw [Bool.not_eq_true] at hdry
    simp only [promoteFinish, hdry, Bool.false_eq_true, if_false]
    cases hupd : update_config_section
        ((fsRead (fsWrite (mkdirParents fs a.runtime_dest) a.runtime_dest
          ((fsRead fs a.model).getD [])) a.config).getD []) d h with
    | none => simp [hupd, fsWrite_dirs]
    | some nl => simp [hupd, fsWrite_dirs]

/-- C10: on every invocation that passes validation and the hash guard,
`main` runs `runtime_dest_path.parent.mkdir(parents=True, exist_ok=True)`
— so afterwards the directory set is exactly the old set extended with
every ancestor of the destination's parent — even when `--dry-run` is set;
dry-run suppresses only the model copy and the config write (in dry-run
the file map is unchanged). -/
theorem promote_dry_run_still_mkdirs (a : Args) (fs : FS)
    (hm : fsExists fs a.model = true)
    (hd : "crates/ai_registry/models/".toList.isPrefixOf
      (backslashToSlash a.runtime_dest) = true)
    (hc : fsExists fs a.config = true)
    (hguard : ∀ c ∈ extract_hash_from_config ((fsRead fs a.config).getD []),
      ¬(pyLower (computeBlake3Hash (strBytes ((fsRead fs a.model).getD []))) =
          pyLower c ∧ a.allow_same_hash = false)) :
    (promoteMain a fs).1.dirs = fs.dirs ++
      ((List.range (splitSlash a.runtime_dest).dropLast.length).map
        (fun i => joinSlash ((splitSlash a.runtime_dest).dropLast.take (i + 1)))) ∧
    (a.dry_run = true → (promoteMain a fs).1.files = fs.files) := by
  have hd' := List.isPrefixOf_iff_prefix.mp hd
  simp at hd'
  have hmain : promoteMain a fs =
      promoteFinish a (backslashToSlash a.runtime_dest)
        (computeBlake3Hash (strBytes ((fsRead fs a.model).getD []))) fs := by
    cases hcur : extract_hash_from_config ((fsRead fs a.config).getD []) with
    | none => simp [promoteMain, hm, hd', hc, hcur]
    | some c =>
        have hng := hguard c (by simp [hcur])
        simp only [not_and] at hng
        by_cases heq : pyLower (computeBlake3Hash
            (strBytes ((fsRead fs a.model).getD []))) = pyLower c
        · cases hab : a.allow_same_hash with
          | false => exact absurd hab (hng heq)
          | true => simp [promoteMain, hm, hd', hc, hcur, heq, hab]
        · simp [promoteMain, hm, hd', hc, hcur, heq]
  rw [hmain]
  exact promoteFinish_state a _ _ fs

/-- Witness for C10: a dry-run promotion over a config pinning a different
hash creates the three ancestor directories of the destination and leaves
every file untouched. -/
theorem promote_dry_run_still_mkdirs_witness :
    (promoteMain
        ⟨"m.json".toList, "crates/ai_registry/models/m.json".toList,
         "config/dlc.toml".toList, false, true⟩
        ⟨[("m.json".toList, "x".toList),
          ("config/dlc.toml".toList,
            ("[dgbdt.model]\npath = \"old\"\nexpected_hash = \"00ff\"\n").toList)],
         []⟩).1.dirs =
      ["crates".toList, "crates/ai_registry".toList,
       "crates/ai_registry/models".toList] ∧
    (promoteMain
        ⟨"m.json".toList, "crates/ai_registry/models/m.json".toList,
         "config/dlc.toml".toList, false, true⟩
        ⟨[("m.json".toList, "x".toList),
          ("config/dlc.toml".toList,
            ("[dgbdt.model]\npath = \"old\"\nexpected_hash = \"00ff\"\n").toList)],
         []⟩).1.files =
      [("m.json".toList, "x".toList),
       ("config/dlc.toml".toList,
         ("[dgbdt.model]\npath = \"old\"\nexpected_hash = \"00ff\"\n").toList)] := by
  have h := promote_dry_run_still_mkdirs
    ⟨"m.json".toList, "crates/ai_registry/models/m.json".toList,
     "config/dlc.toml".toList, false, true⟩
    ⟨[("m.json".toList, "x".toList),
      ("config/dlc.toml".toList,
        ("[dgbdt.model]\npath = \"old\"\nexpected_hash = \"00ff\"\n").toList)],
     []⟩
    (by decide) (by decide) (by decide)
    (fun c hc => by
      rw [Option.mem_def] at hc
      have hc' : c = "00ff".toList := Option.some.inj (hc.symm.trans (by decide :
        extract_hash_from_config ((fsRead
          (⟨[("m.json".toList, "x".toList),
             ("config/dlc.toml".toList,
               ("[dgbdt.model]\npath = \"old\"\nexpected_hash = \"00ff\"\n").toList)],
            []⟩ : FS) "config/dlc.toml".toList).getD []) = some "00ff".toList))
      subst hc'
      decide)
  refine ⟨?_, ?_⟩
  · rw [h.1]
    decide
  · rw [h.2 rfl]

/-! ## Claim C9 — when validation failures are surfaced -/

theorem dictGet_map_replace_ne (l : List (List Char × List Char))
    (p c q : List Char) (h : q ≠ p) :
    dictGet (l.map (fun f => if f.1 = p then (p, c) else f)) q = dictGet l q := by
  induction l with
  | nil => rfl
  | cons f rest ih =>
      obtain ⟨k, v⟩ := f
      by_cases hf : k = p
      · subst hf
        simp [dictGet, Ne.symm h, ih]
      · by_cases hq : k = q
        · simp [dictGet, hf, hq, h]
        · simp [dictGet, hf, hq, ih]

theorem dictGet_map_replace_self (l : List (List Char × List Char))
    (p c : List Char) (h : (dictGet l p).isSome = true) :
    dictGet (l.map (fun f => if f.1 = p then (p, c) else f)) p = some c := by
  induction l with
  | nil => simp [dictGet] at h
  | cons f rest ih =>
      obtain ⟨k, v⟩ := f
      by_cases hf : k = p
      · subst hf
        simp [dictGet]
      · simp only [dictGet, if_neg hf] at h
        simp [dictGet, hf, ih h]

theorem dictGet_append (l1 l2 : List (List Char × List Char)) (q : List Char) :
    dictGet (l1 ++ l2) q =
      match dictGet l1 q with
      | some v => some v
      | none => dictGet l2 q := by
  induction l1 with
  | nil => simp [dictGet]
  | cons f rest ih =>
      obtain ⟨k, v⟩ := f
      by_cases hq : k = q
      · simp [dictGet, hq]
      · simp [dictGet, hq, ih]

/-- Reading through a write: the written path returns the new content and
every other path is unchanged. -/
theorem fsRead_fsWrite (fs : FS) (p c q : List Char) :
    fsRead (fsWrite fs p c) q = if q = p then some c else fsRead fs q := by
  unfold fsRead fsWrite
  by_cases hp : (dictGet fs.files p).isSome = true
  · simp only [hp, if_true]
    by_cases hq : q = p
    · subst hq
      rw [dictGet_map_replace_self _ _ _ hp, if_pos rfl]
    · rw [dictGet_map_replace_ne _ _ _ _ hq, if_neg hq]
  · simp only [hp, Bool.false_eq_true, if_false]
    rw [dictGet_append]
    by_cases hq : q = p
    · subst hq
      rw [Option.not_isSome_iff_eq_none.mp hp]
      simp [dictGet]
    · cases hl : dictGet fs.files q with
      | none => simp [dictGet, Ne.symm hq, hq]
      | some v => simp [hq]

/-- C9 amended: the three argument validations — missing model file,
destination not under `crates/ai_registry/models/`, missing config file —
each exit with code 1 leaving the state untouched, before any side effect;
but a missing `[dgbdt.model]` section is detected only inside the config
update, after the destination directories were created and (without
dry-run) the model file was already copied; it exits 1 (uncaught
`ValueError`) with the config file unmutated. -/
theorem promote_validation_failures :
    (∀ (a : Args) (fs : FS), fsExists fs a.model = false →
        promoteMain a fs = (fs, 1)) ∧
    (∀ (a : Args) (fs : FS),
        "crates/ai_registry/models/".toList.isPrefixOf
          (backslashToSlash a.runtime_dest) = false →
        promoteMain a fs = (fs, 1)) ∧
    (∀ (a : Args) (fs : FS), fsExists fs a.config = false →
        promoteMain a fs = (fs, 1)) ∧
    (∀ (a : Args) (fs : FS),
        fsExists fs a.model = true →
        "crates/ai_registry/models/".toList.isPrefixOf
          (backslashToSlash a.runtime_dest) = true →
        fsExists fs a.config = true →
        find_section_bounds (pyReadlines ((fsRead fs a.config).getD []))
          dgbdtSection = none →
        a.runtime_dest ≠ a.config →
        a.dry_run = false →
        promoteMain a fs =
          (fsWrite (mkdirParents fs a.runtime_dest) a.runtime_dest
            ((fsRead fs a.model).getD []), 1)) := by
  refine ⟨?_, ?_, ?_, ?_⟩
  · intro a fs hm
    simp [promoteMain, hm]
  · intro a fs hd
    by_cases hm : fsExists fs a.model = true
    · have hd' : ¬ ("crates/ai_registry/models/".toList <+:
          backslashToSlash a.runtime_dest) := by
        rw [← List.isPrefixOf_iff_prefix, hd]
        simp
      simp at hd'
      simp [promoteMain, hm, hd']
    · simp only [Bool.not_eq_true] at hm
      simp [promoteMain, hm]
  · intro a fs hc
    by_cases hm : fsExists fs a.model = true
    · by_cases hd : "crates/ai_registry/models/".toList <+:
          backslashToSlash a.runtime_dest
      · have hd2 := hd
        simp at hd2
        simp [promoteMain, hm, hd2, hc]
      · have hd2 := hd
        simp at hd2
        simp [promoteMain, hm, hd2]
    · simp only [Bool.not_eq_true] at hm
      simp [promoteMain, hm]
  · intro a fs hm hd hc hsect hne hdry
    have hd' := List.isPrefixOf_iff_prefix.mp hd
    simp at hd'
    have hcur : extract_hash_from_config ((fsRead fs a.config).getD []) = none := by
      simp [extract_hash_from_config, hsect]
    have hread : fsRead (fsWrite (mkdirParents fs a.runtime_dest) a.runtime_dest
        ((fsRead fs a.model).getD [])) a.config = fsRead fs a.config := by
      rw [fsRead_fsWrite, if_neg (Ne.symm hne)]
      rfl
    have hupd : update_config_section
        ((fsRead (fsWrite (mkdirParents fs a.runtime_dest) a.runtime_dest
          ((fsRead fs a.model).getD [])) a.config).getD [])
        (backslashToSlash a.runtime_dest)
        (computeBlake3Hash (strBytes ((fsRead fs a.model).getD []))) = none := by
      rw [hread]
      simp [update_config_section, hsect]
    simp [promoteMain, hm, hd', hc, hcur, promoteFinish, hdry, hupd]

/-- C9 counterexample: with a valid model, destination and config file but
no `[dgbdt.model]` section, the run exits with code 1 — yet the model file
HAS been copied to the runtime destination first (and the config is left
as it was), contradicting "surfaced immediately, before any file copy". -/
theorem promote_missing_section_counterexample :
    (promoteMain
        ⟨"m.json".toList, "crates/ai_registry/models/m.json".toList,
         "config/dlc.toml".toList, false, false⟩
        ⟨[("m.json".toList, "x".toList),
          ("config/dlc.toml".toList, ("[other]\nkey = \"v\"\n").toList)],
         []⟩).2 = 1 ∧
    fsRead (promoteMain
        ⟨"m.json".toList, "crates/ai_registry/models/m.json".toList,
         "config/dlc.toml".toList, false, false⟩
        ⟨[("m.json".toList, "x".toList),
          ("config/dlc.toml".toList, ("[other]\nkey = \"v\"\n").toList)],
         []⟩).1 "crates/ai_registry/models/m.json".toList = some "x".toList ∧
    fsRead (promoteMain
        ⟨"m.json".toList, "crates/ai_registry/models/m.json".toList,
         "config/dlc.toml".toList, false, false⟩
        ⟨[("m.json".toList, "x".toList),
          ("config/dlc.toml".toList, ("[other]\nkey = \"v\"\n").toList)],
         []⟩).1 "config/dlc.toml".toList = some ("[other]\nkey = \"v\"\n").toList := by
  refine ⟨?_, ?_, ?_⟩ <;> decide

/-- Witness for C9: a missing model file exits 1 untouched, and the
missing-section run ends in the state with the model already copied. -/
theorem promote_validation_failures_witness :
    promoteMain
      ⟨"absent.json".toList, "crates/ai_registry/models/m.json".toList,
       "config/dlc.toml".toList, false, false⟩ ⟨[], []⟩ = (⟨[], []⟩, 1) ∧
    promoteMain
      ⟨"m.json".toList, "crates/ai_registry/models/m.json".toList,
       "config/dlc.toml".toList, false, false⟩
      ⟨[("m.json".toList, "x".toList),
        ("config/dlc.toml".toList, ("[other]\nkey = \"v\"\n").toList)],
       []⟩ =
      (fsWrite
        (mkdirParents
          ⟨[("m.json".toList, "x".toList),
            ("config/dlc.toml".toList, ("[other]\nkey = \"v\"\n").toList)],
           []⟩
          "crates/ai_registry/models/m.json".toList)
        "crates/ai_registry/models/m.json".toList "x".toList, 1) :=
  ⟨promote_validation_failures.1 _ _ (by decide),
   promote_validation_failures.2.2.2 _ _ (by decide) (by decide) (by decide)
     (by decide) (by decide) rfl⟩

/-! ## Claim C4 — the config rewrite's frame -/

/-- C4: on a config whose `[dgbdt.model]` section contains exactly one
`path` line and exactly one digest line — the digest key being `hash_b3`
when that name already appears anywhere in the section and
`expected_hash` otherwise — the rewrite replaces exactly those two lines
with the new `path`/digest assignments, and reproduces every other
section line and every line outside the section character for
character. -/
theorem update_config_section_frame
    (content mp nh : List Char) (lines sect : List (List Char))
    (hk : List Char) (s e pidx hidx : ℕ)
    (hlines : lines = pyReadlines content)
    (hb : find_section_bounds lines dgbdtSection = some (s, e))
    (hsect : sect = (lines.drop s).take (e - s))
    (hhk : hk = (if sect.any (containsSub "hash_b3".toList) then
      "hash_b3".toList else "expected_hash".toList))
    (hplen : pidx < sect.length)
    (hpmatch : keyLineMatch "path".toList (sect.getD pidx []) = true)
    (hponly : ∀ j, j < sect.length → j ≠ pidx →
      keyLineMatch "path".toList (sect.getD j []) = false)
    (hhlen : hidx < sect.length)
    (hhmatch : keyLineMatch hk (sect.getD hidx []) = true)
    (hhonly : ∀ j, j < sect.length → j ≠ hidx →
      keyLineMatch hk (sect.getD j []) = false)
    (hne : pidx ≠ hidx) :
    update_config_section content mp nh =
      some (lines.take s ++
        (List.range sect.length).map (fun j =>
          if j = pidx then "path = \"".toList ++ mp ++ "\"\n".toList
          else if j = hidx then hk ++ " = \"".toList ++ nh ++ "\"\n".toList
          else sect.getD j []) ++
        lines.drop e) := by
  have hpany : sect.any (keyLineMatch "path".toList) = true := by
    rw [List.any_eq_true]
    refine ⟨sect.getD pidx [], ?_, hpmatch⟩
    rw [List.getD_eq_getElem _ _ hplen]
    exact List.getElem_mem hplen
  have hhany : sect.any (keyLineMatch hk) = true := by
    rw [List.any_eq_true]
    refine ⟨sect.getD hidx [], ?_, hhmatch⟩
    rw [List.getD_eq_getElem _ _ hhlen]
    exact List.getElem_mem hhlen
  have hmap : sect.map (fun line =>
      if keyLineMatch "path".toList line then
        "path = \"".toList ++ mp ++ "\"\n".toList
      else if keyLineMatch hk line then hk ++ " = \"".toList ++ nh ++ "\"\n".toList
      else line) =
      (List.range sect.length).map (fun j =>
        if j = pidx then "path = \"".toList ++ mp ++ "\"\n".toList
        else if j = hidx then hk ++ " = \"".toList ++ nh ++ "\"\n".toList
        else sect.getD j []) := by
    apply List.ext_getElem
    · simp
    · intro i h1 h2
      simp only [List.getElem_map, List.getElem_range]
      have hi : i < sect.length := by simpa using h1
      rw [show sect[i] = sect.getD i [] from (List.getD_eq_getElem _ _ hi).symm]
      by_cases hip : i = pidx
      · subst hip
        rw [if_pos hpmatch, if_pos rfl]
      · have hp' : ¬ (keyLineMatch "path".toList (sect.getD i []) = true) := by
          rw [hponly i hi hip]
          exact Bool.false_ne_true
        rw [if_neg hp', if_neg hip]
        by_cases hih : i = hidx
        · subst hih
          rw [if_pos hhmatch, if_pos rfl]
        · have hh' : ¬ (keyLineMatch hk (sect.getD i []) = true) := by
            rw [hhonly i hi hih]
            exact Bool.false_ne_true
          rw [if_neg hh', if_neg hih]
  subst hlines hsect hhk
  simp only [update_config_section, hb, hpany, hhany, if_true, hmap]

/-- Concrete evaluation of the whole rewrite on the C4 witness config:
only the `path` and `hash_b3` lines change, everything else — the `[net]`
section, the comment, the `extra` key, the `[other]` section — is
reproduced verbatim. -/
example :
    update_config_section
      ("[net]\nport = 1\n[dgbdt.model]\n# pin\npath = \"old\"\nhash_b3 = \"aa\"\nextra = \"keep\"\n[other]\nz = \"1\"\n").toList
      "crates/ai_registry/models/m2.json".toList "bb".toList =
      some
        ["[net]\n".toList, "port = 1\n".toList, "[dgbdt.model]\n".toList,
         "# pin\n".toList,
         "path = \"crates/ai_registry/models/m2.json\"\n".toList,
         "hash_b3 = \"bb\"\n".toList, "extra = \"keep\"\n".toList,
         "[other]\n".toList, "z = \"1\"\n".toList] := by
  decide

/-- Witness for C4: a two-section config whose `[dgbdt.model]` section has
a comment, a `path` line, a `hash_b3` line and an unrelated key: the
rewrite touches only the `path` and `hash_b3` lines (preferring the
existing `hash_b3` key name) and leaves everything else, including the
other sections, untouched. -/
theorem update_config_section_frame_witness :
    update_config_section
      ("[net]\nport = 1\n[dgbdt.model]\n# pin\npath = \"old\"\nhash_b3 = \"aa\"\nextra = \"keep\"\n[other]\nz = \"1\"\n").toList
      "crates/ai_registry/models/m2.json".toList "bb".toList =
      some ((pyReadlines ("[net]\nport = 1\n[dgbdt.model]\n# pin\npath = \"old\"\nhash_b3 = \"aa\"\nextra = \"keep\"\n[other]\nz = \"1\"\n").toList).take 2 ++
        (List.range (((pyReadlines ("[net]\nport = 1\n[dgbdt.model]\n# pin\npath = \"old\"\nhash_b3 = \"aa\"\nextra = \"keep\"\n[other]\nz = \"1\"\n").toList).drop 2).take (7 - 2)).length).map (fun j =>
          if j = 2 then "path = \"".toList ++ "crates/ai_registry/models/m2.json".toList ++ "\"\n".toList
          else if j = 3 then "hash_b3".toList ++ " = \"".toList ++ "bb".toList ++ "\"\n".toList
          else (((pyReadlines ("[net]\nport = 1\n[dgbdt.model]\n# pin\npath = \"old\"\nhash_b3 = \"aa\"\nextra = \"keep\"\n[other]\nz = \"1\"\n").toList).drop 2).take (7 - 2)).getD j []) ++
        (pyReadlines ("[net]\nport = 1\n[dgbdt.model]\n# pin\npath = \"old\"\nhash_b3 = \"aa\"\nextra = \"keep\"\n[other]\nz = \"1\"\n").toList).drop 7) :=
  update_config_section_frame _ _ _ _ _ "hash_b3".toList 2 7 2 3
    rfl (by decide) rfl (by decide) (by decide) (by decide) (by decide)
    (by decide) (by decide) (by decide) (by decide)

end IppanModel
